import Mathlib

/-!
# Verification of the Mercari price-scraper core (`src/scrape.py`)

A shallow embedding of the price-extraction-and-aggregation pipeline of
`scrape.py`: the per-text price parsing, the three extraction stages of
`fetch_prices` (DOM selectors, JS evaluation, whole-page regex), the
sort/trim aggregation, the retry logic, the batch-state operations, and
the top-level exit behaviour.  Page rendering is an external collaborator
and is modelled as an oracle (`Page`) supplying the element texts, the
JS-evaluated texts and the raw page HTML that the script reads.
-/

namespace Scrape

/-! ## Configuration constants (module-level constants of `scrape.py`) -/

def MAX_RETRIES : Nat := 3

def MAX_ITEMS : Nat := 30

def USD_TO_JPY : Nat := 152

/-! ## Character classes and integer parsing

`scrape.py` matches prices with the regexes `[¥￥]([0-9,]+)` and
`\$([0-9,.]+)` and parses digit strings with Python `int`. -/

def isDigitCh (c : Char) : Bool := '0' ≤ c && c ≤ '9'

/-- Characters matched by the JPY group `[0-9,]`. -/
def isJpyBody (c : Char) : Bool := isDigitCh c || c = ','

/-- Characters matched by the USD group `[0-9,.]`. -/
def isUsdBody (c : Char) : Bool := isDigitCh c || c = ',' || c = '.'

/-- Currency marks of the JPY pattern `[¥￥]`. -/
def isYenMark (c : Char) : Bool := c = '¥' || c = '￥'

def digitsToNat (cs : List Char) : Nat :=
  cs.foldl (fun acc c => acc * 10 + (c.toNat - '0'.toNat)) 0

/-- Python `int(s)` on a (non-negative) digit string: `ValueError` (here `none`)
on the empty string or on any non-digit character. -/
def pyInt (cs : List Char) : Option Nat :=
  if cs.isEmpty || cs.any (fun c => !isDigitCh c) then none else some (digitsToNat cs)

/-- `s.replace(',', '')` on a character list. -/
def stripCommas (cs : List Char) : List Char := cs.filter (fun c => c ≠ ',')

/-- `re.search(mark ++ "(body+)", t)`: leftmost occurrence of a mark character
followed by at least one body character; returns the greedy capture group. -/
def searchGroup (mark body : Char → Bool) : List Char → Option (List Char)
  | [] => none
  | c :: rest =>
    if mark c && (match rest with | r :: _ => body r | [] => false) then
      some (rest.takeWhile body)
    else
      searchGroup mark body rest

/-- The scan behind `findallGroups`; `fuel` is structural fuel bounding the
number of characters still to be inspected (each step either consumes the
head or the whole match, so `fuel = cs.length` always suffices). -/
def findallAux (mark body : Char → Bool) : Nat → List Char → List (List Char)
  | 0, _ => []
  | _, [] => []
  | fuel + 1, c :: rest =>
    if mark c && (match rest with | r :: _ => body r | [] => false) then
      let g := rest.takeWhile body
      g :: findallAux mark body fuel (rest.drop g.length)
    else
      findallAux mark body fuel rest

/-- `re.findall(mark ++ "(body+)", t)`: all non-overlapping matches, scanning
left to right and resuming after each match; returns the capture groups. -/
def findallGroups (mark body : Char → Bool) (cs : List Char) : List (List Char) :=
  findallAux mark body cs.length cs

/-! ## Price extraction from a single text

Lines 341–375 (DOM stage) and 402–434 (JS stage) of `scrape.py`; both run
the same logic: skip texts without a digit, try the JPY pattern first and
`continue` on an in-bounds hit, otherwise fall through to the USD pattern,
keeping only amounts with `1000 <= price <= 200000`. -/

/-- The bounds check `1000 <= price <= 200000` (inlined in `scrape.py`). -/
def inBounds (p : Nat) : Bool := 1000 ≤ p && p ≤ 200000

/-- JPY branch: `re.search(r'[¥￥]([0-9,]+)', t)`, strip commas, `int`,
keep only in-bounds amounts (out-of-bounds or `ValueError` falls through). -/
def jpyCandidate (t : String) : Option Nat :=
  match searchGroup isYenMark isJpyBody t.data with
  | none => none
  | some g =>
    match pyInt (stripCommas g) with
    | none => none
    | some p => if inBounds p then some p else none

/-- USD group processing: strip commas, drop the fractional part after the
first `'.'` (Python `price_str.split('.')[0]`), `int`, convert with
`USD_TO_JPY`, keep only in-bounds amounts. -/
def usdFromGroup (g : List Char) : Option Nat :=
  let s := stripCommas g
  let ds := if s.contains '.' then s.takeWhile (fun c => c ≠ '.') else s
  match pyInt ds with
  | none => none
  | some d =>
    let jpy := d * USD_TO_JPY
    if inBounds jpy then some jpy else none

/-- USD branch: `re.search(r'\$([0-9,.]+)', t)` then `usdFromGroup`. -/
def usdCandidate (t : String) : Option Nat :=
  match searchGroup (fun c => c = '$') isUsdBody t.data with
  | none => none
  | some g => usdFromGroup g

/-- One loop body of `for t in texts:`: requires a truthy text containing a
digit (`if t and re.search(r"\d", t)`); an in-bounds JPY hit `continue`s,
otherwise the USD pattern is tried; at most one candidate per text. -/
def extractFromText (t : String) : Option Nat :=
  if !t.data.isEmpty && t.data.any isDigitCh then
    match jpyCandidate t with
    | some p => some p
    | none => usdCandidate t
  else none

/-! ## The JSON value model and the spec's JSON-tree strategy

`scrape.py` contains no JSON-tree extraction strategy; the definitions in
this section are modelled from the spec (§4.1–§4.2) so that claims that
mention that strategy can be settled against the code. -/

/-- Modelled from the spec: the tagged `Value` union
`Null | Bool | Number | Text | Array | Object` of §3, representing parsed
embedded JSON data.  No parser appears in `src/scrape.py`. -/
inductive Value where
  | null
  | bool (b : Bool)
  | num (n : Int)
  | str (s : String)
  | arr (elems : List Value)
  | obj (fields : List (String × Value))

mutual

/-- Modelled from the spec: `findLeaves` of §4.1 — depth-first traversal
collecting object nodes satisfying the predicate without descending into
them; non-matching objects and arrays recurse into every member. -/
def findLeaves (pred : List (String × Value) → Bool) : Value → List (List (String × Value))
  | .null => []
  | .bool _ => []
  | .num _ => []
  | .str _ => []
  | .arr elems => findLeavesArr pred elems
  | .obj fields => if pred fields then [fields] else findLeavesFields pred fields

/-- Traversal of an array's elements (part of `findLeaves`). -/
def findLeavesArr (pred : List (String × Value) → Bool) : List Value → List (List (String × Value))
  | [] => []
  | v :: vs => findLeaves pred v ++ findLeavesArr pred vs

/-- Traversal of an object's field values (part of `findLeaves`). -/
def findLeavesFields (pred : List (String × Value) → Bool) :
    List (String × Value) → List (List (String × Value))
  | [] => []
  | (_, v) :: fs => findLeaves pred v ++ findLeavesFields pred fs

end

/-- First value bound to `key` in an object node. -/
def fieldLookup (key : String) : List (String × Value) → Option Value
  | [] => none
  | (k, v) :: fs => if k = key then some v else fieldLookup key fs

/-- The spec's "has a numeric field named `price`" predicate (§4.1). -/
def hasNumericPrice (fields : List (String × Value)) : Bool :=
  match fieldLookup "price" fields with
  | some (.num _) => true
  | _ => false

/-- The spec's sale-status filter (§4.2): keep nodes whose `status` denotes
"on sale"; nodes lacking a status field are kept permissively. -/
def statusOk (fields : List (String × Value)) : Bool :=
  match fieldLookup "status" fields with
  | some (.str s) => s = "on_sale"
  | some _ => false
  | none => true

/-- The numeric `price` field of a matched node. -/
def priceOf (fields : List (String × Value)) : Option Int :=
  match fieldLookup "price" fields with
  | some (.num n) => some n
  | _ => none

/-- Modelled from the spec: the JSON-tree extraction strategy of §4.2,
absent from `src/scrape.py` — walk the parsed embedded data for nodes with
a numeric `price`, keep on-sale (or status-less) nodes, one candidate per
node; a missing or malformed script node yields no candidates. -/
def jsonStrategy (data : Option Value) : List Int :=
  match data with
  | none => []
  | some v => ((findLeaves hasNumericPrice v).filter statusOk).filterMap priceOf

/-! ## The page oracle and the three extraction stages of `fetch_prices` -/

/-- The ordered selector list of `scrape.py` (lines 270–279). -/
def selectors : List String :=
  [".merPrice",
   "[data-testid=\"item-price\"]",
   ".merItemThumbnail__price",
   ".merItem__price",
   "[data-location=\"search\"] [data-testid=\"price\"]",
   ".item-price",
   "[class*=\"price\"]",
   ".mer-item-price"]

/-- The external Page Session: for each selector, the text contents of its
visible matching elements (`page.locator(sel).all()` + `text_content`), the
texts produced by `page.eval_on_selector_all`, and the raw `page.content()`
HTML.  `scriptData` is not read anywhere in `scrape.py`; it models the parsed
embedded-data script node that the spec's JSON-tree strategy would consume
(`none` for a missing or malformed node). -/
structure Page where
  domTexts : String → List String
  jsTexts : String → List String
  html : String
  scriptData : Option Value

/-- Stage 1 loop (lines 317–381): iterate the selectors, truncate each
selector's texts to `MAX_ITEMS`, append that selector's candidates to the
accumulated `dom_prices`, and `break` as soon as `dom_prices` is non-empty. -/
def domLoop (page : Page) : List String → List Nat → List Nat
  | [], acc => acc
  | sel :: rest, acc =>
    let texts := page.domTexts sel
    if texts.isEmpty then domLoop page rest acc
    else
      let texts := if texts.length > MAX_ITEMS then texts.take MAX_ITEMS else texts
      let acc := acc ++ texts.filterMap extractFromText
      if acc.isEmpty then domLoop page rest acc else acc

def domPhase (page : Page) : List Nat := domLoop page selectors []

/-- Stage 2 loop (lines 384–443): per selector a fresh `js_prices` with the
same per-text extraction, no `MAX_ITEMS` truncation; the first selector with
a non-empty `js_prices` wins. -/
def jsLoop (page : Page) : List String → List Nat
  | [] => []
  | sel :: rest =>
    let js := (page.jsTexts sel).filterMap extractFromText
    if js.isEmpty then jsLoop page rest else js

def jsPhase (page : Page) : List Nat := jsLoop page selectors

/-- Stage 3, JPY half (lines 458–469): `re.findall(r'[¥￥]([0-9,]+)', html)`,
parse each group with `int(re.sub(r"[^\d]", "", p))`, keep in-bounds hits. -/
def regexJpyPrices (html : String) : List Nat :=
  (findallGroups isYenMark isJpyBody html.data).filterMap (fun g =>
    match pyInt (g.filter isDigitCh) with
    | none => none
    | some p => if inBounds p then some p else none)

/-- Stage 3, USD half (lines 472–492): `re.findall(r'\$([0-9,.]+)', html)`
processed like the per-text USD branch. -/
def regexUsdPrices (html : String) : List Nat :=
  (findallGroups (fun c => c = '$') isUsdBody html.data).filterMap usdFromGroup

/-- Stage 3 (lines 446–498): `regex_prices = jpy_prices + usd_prices`. -/
def regexPhase (html : String) : List Nat := regexJpyPrices html ++ regexUsdPrices html

/-- The extraction part of `fetch_prices` (lines 317–506): the DOM stage,
then — only if it produced nothing — the JS-evaluation stage, then — only if
both produced nothing — the whole-page regex stage. -/
def fetchExtract (page : Page) : List Nat :=
  let dom := domPhase page
  let dom := if dom.isEmpty then jsPhase page else dom
  let dom := if dom.isEmpty then regexPhase page.html else dom
  dom

/-- The extraction stages of `fetch_prices`, in source order.  There is no
JSON-tree stage in `scrape.py`. -/
inductive Strat where
  | dom
  | jsEval
  | regex
deriving DecidableEq, Repr

/-- `fetchExtract` instrumented with the list of stages whose code actually
executes: the DOM scan always runs; the JS scan runs only when the DOM scan
yielded nothing (`if not dom_prices:`, line 384); the regex scan runs only
when both yielded nothing (line 446). -/
def fetchExtractTrace (page : Page) : List Nat × List Strat :=
  let dom := domPhase page
  if !dom.isEmpty then (dom, [Strat.dom])
  else
    let js := jsPhase page
    if !js.isEmpty then (js, [Strat.dom, Strat.jsEval])
    else (regexPhase page.html, [Strat.dom, Strat.jsEval, Strat.regex])

/-! ## Sorting, trimming and the reported median -/

/-- `prices.sort()`: Python's stable ascending sort; on integer lists any
correct ascending sort computes the same list. -/
def pySort (l : List Nat) : List Nat := List.insertionSort (· ≤ ·) l

/-- Lines 528–538 of `fetch_prices`: sort ascending, and when at least 10
values were retained drop `len(prices) // 10` from each end
(`prices[k : len(prices) - k]`). -/
def processPrices (prices : List Nat) : List Nat :=
  if prices.isEmpty then prices
  else
    let s := pySort prices
    if s.length ≥ 10 then
      let k := s.length / 10
      (s.drop k).take (s.length - k - k)
    else s

/-- `round(median(prices))` of `process_batch` (line 559) on a non-empty
integer list: `statistics.median` takes the middle element for odd length
and the mean of the two middle elements for even length; Python `round`
rounds halves to the nearest even integer (banker's rounding).  For the
amounts produced here (≤ 200000) the float mean of two integers is exact,
so the half-case analysis below is an exact model. -/
def pyRoundMedian (l : List Nat) : Nat :=
  let s := pySort l
  let n := s.length
  if n % 2 = 1 then s.getD (n / 2) 0
  else
    let a := s.getD (n / 2 - 1) 0
    let b := s.getD (n / 2) 0
    if (a + b) % 2 = 0 then (a + b) / 2
    else if ((a + b) / 2) % 2 = 0 then (a + b) / 2 else (a + b) / 2 + 1

/-! ## The retry behaviour of `fetch_prices`

`fetch_prices(keyword, retry_count)` runs the whole navigate-and-extract
block in a `try`; only an exception enters the retry path (lines 516–523):
with `retry_count < MAX_RETRIES` it sleeps `(2 ** retry_count) * 5` seconds
and returns `fetch_prices(keyword, retry_count + 1)`, otherwise it falls
through with `prices = []`.  A non-raising attempt — even one that found no
candidates — goes straight to the sort/trim epilogue and returns.  An
attempt is modelled by an oracle `op : Nat → Option (List Nat)` giving,
per `retry_count`, either the extracted candidate list or `none` for a
raised exception. -/

structure RetryTrace where
  result : List Nat
  attempts : Nat
  backoffs : List Nat
deriving DecidableEq, Repr

/-- The retry recursion of `fetch_prices`; `remaining` is structural fuel
standing for the bound `MAX_RETRIES - retryCount` on the recursion depth
(the zero-fuel branch is unreachable when called through
`fetchPricesRun`). -/
def fetchPricesAux (op : Nat → Option (List Nat)) : Nat → Nat → RetryTrace
  | retryCount, remaining =>
    match op retryCount with
    | some ps => { result := processPrices ps, attempts := 1, backoffs := [] }
    | none =>
      if retryCount < MAX_RETRIES then
        match remaining with
        | 0 => { result := processPrices [], attempts := 1, backoffs := [] }
        | r + 1 =>
          let t := fetchPricesAux op (retryCount + 1) r
          { result := t.result
            attempts := t.attempts + 1
            backoffs := 2 ^ retryCount * 5 :: t.backoffs }
      else { result := processPrices [], attempts := 1, backoffs := [] }

/-- `fetch_prices` from a given `retry_count`, instrumented with the total
number of attempts and the backoff waits (in seconds) taken before each
retry. -/
def fetchPricesRun (op : Nat → Option (List Nat)) (retryCount : Nat) : RetryTrace :=
  fetchPricesAux op retryCount (MAX_RETRIES - retryCount)

/-! ## Batch state (`load_state`, `save_state`, the mark-done updates,
and the state reset in `main`) -/

/-- The progress record of `progress.json`: `last_update`, the `completed`
list, and the `results` dict (keyed by product name, `None` for a query
that yielded no data). -/
structure BatchState where
  last_update : String
  completed : List String
  results : List (String × Option Nat)
deriving DecidableEq, Repr

/-- Python dict assignment `d[k] = v` on an insertion-ordered
association list: replace in place if the key is present, else append. -/
def dictSet (m : List (String × Option Nat)) (k : String) (v : Option Nat) :
    List (String × Option Nat) :=
  match m with
  | [] => [(k, v)]
  | (k', v') :: rest => if k' = k then (k, v) :: rest else (k', v') :: dictSet rest k v

/-- The mark-done update of `process_batch` (lines 562–573, both the
success and the no-data branch): `state["completed"].append(name)`,
`state["results"][name] = result`, then `save_state(state)` (a pure no-op
on the in-memory state). -/
def markDone (s : BatchState) (k : String) (r : Option Nat) : BatchState :=
  { s with completed := s.completed ++ [k], results := dictSet s.results k r }

/-- What `load_state` can observe of `progress.json`. -/
inductive StateFileView where
  | missing
  | unreadable
  | readable (s : BatchState)

/-- The initial state built by `load_state` (lines 120–124):
`{"last_update": "", "completed": [], "results": \x7b\x7d}`. -/
def initial_state : BatchState :=
  { last_update := "", completed := [], results := [] }

/-- `load_state` (lines 110–124): return the parsed file when it exists and
parses, and the initial state otherwise.  It takes no day argument and never
inspects `last_update`. -/
def load_state : StateFileView → BatchState
  | .missing => initial_state
  | .unreadable => initial_state
  | .readable s => s

/-- The state that `main` builds after unconditionally deleting any
existing `progress.json` (lines 631–642). -/
def main_fresh_state (today : String) : BatchState :=
  { last_update := today, completed := [], results := [] }

/-! ## Exit behaviour (`save_state` and the `try`/`except` of `main`) -/

/-- Outcome of running a block of Python code: normal return, a raised
`Exception`, or a `KeyboardInterrupt` (which `except Exception` does not
catch). -/
inductive PyOutcome (α : Type) where
  | ok (a : α)
  | exn (msg : String)
  | interrupt
deriving DecidableEq, Repr

/-- `save_state` (lines 126–133): the file write is wrapped in
`try ... except Exception as e: print(...)`, so a write failure is logged
and swallowed — the caller always sees a normal return. -/
def save_state_outcome (write : PyOutcome Unit) : PyOutcome Unit :=
  match write with
  | .ok _ => .ok ()
  | .exn _ => .ok ()
  | .interrupt => .interrupt

/-- The process exit code as a function of how the body of `main` ends
(lines 624–693): a normal return exits 0; `except KeyboardInterrupt` and
`except Exception` both print and return normally, so those exit 0 too.
No `sys.exit` appears anywhere in `scrape.py`. -/
def main_exit : PyOutcome Unit → Nat
  | .ok _ => 0
  | .interrupt => 0
  | .exn _ => 0

/-! ## Unfolding equations (the `let`-free shapes of the definitions) -/

/-- Per-selector texts after the `MAX_ITEMS` truncation. -/
def selTexts (page : Page) (sel : String) : List String :=
  if (page.domTexts sel).length > MAX_ITEMS then (page.domTexts sel).take MAX_ITEMS
  else page.domTexts sel

/-- Per-selector candidates of the DOM stage. -/
def selCands (page : Page) (sel : String) : List Nat :=
  (selTexts page sel).filterMap extractFromText

theorem domLoop_nil (page : Page) (acc : List Nat) : domLoop page [] acc = acc := rfl

theorem domLoop_cons (page : Page) (sel : String) (rest : List String) (acc : List Nat) :
    domLoop page (sel :: rest) acc =
      if (page.domTexts sel).isEmpty then domLoop page rest acc
      else if (acc ++ selCands page sel).isEmpty then domLoop page rest (acc ++ selCands page sel)
      else acc ++ selCands page sel := rfl

theorem jsLoop_cons (page : Page) (sel : String) (rest : List String) :
    jsLoop page (sel :: rest) =
      if ((page.jsTexts sel).filterMap extractFromText).isEmpty then jsLoop page rest
      else (page.jsTexts sel).filterMap extractFromText := rfl

theorem usdFromGroup_eq (g : List Char) :
    usdFromGroup g =
      match pyInt (if (stripCommas g).contains '.' then
          (stripCommas g).takeWhile (fun c => c ≠ '.') else stripCommas g) with
      | none => none
      | some d => if inBounds (d * USD_TO_JPY) then some (d * USD_TO_JPY) else none := rfl

theorem processPrices_eq (l : List Nat) :
    processPrices l =
      if l.isEmpty then l
      else if (pySort l).length ≥ 10 then
        ((pySort l).drop ((pySort l).length / 10)).take
          ((pySort l).length - (pySort l).length / 10 - (pySort l).length / 10)
      else pySort l := rfl

theorem fetchExtract_eq (page : Page) :
    fetchExtract page =
      if (domPhase page).isEmpty then
        if (jsPhase page).isEmpty then regexPhase page.html else jsPhase page
      else domPhase page := by
  unfold fetchExtract
  by_cases h1 : (domPhase page).isEmpty <;> by_cases h2 : (jsPhase page).isEmpty <;>
    simp [h1, h2]

/-! ## Helper lemmas -/

theorem inBounds_iff {p : Nat} : inBounds p = true ↔ 1000 ≤ p ∧ p ≤ 200000 := by
  simp [inBounds]

theorem jpyCandidate_bounds {t : String} {p : Nat} (h : jpyCandidate t = some p) :
    1000 ≤ p ∧ p ≤ 200000 := by
  unfold jpyCandidate at h
  split at h
  · exact absurd h (by simp)
  · split at h
    · exact absurd h (by simp)
    · split at h
      next hb => cases h; exact inBounds_iff.mp hb
      next => exact absurd h (by simp)

theorem usdFromGroup_bounds {g : List Char} {p : Nat} (h : usdFromGroup g = some p) :
    1000 ≤ p ∧ p ≤ 200000 := by
  rw [usdFromGroup_eq] at h
  split at h
  · exact absurd h (by simp)
  · split at h
    next hb => cases h; exact inBounds_iff.mp hb
    next => exact absurd h (by simp)

theorem usdCandidate_bounds {t : String} {p : Nat} (h : usdCandidate t = some p) :
    1000 ≤ p ∧ p ≤ 200000 := by
  unfold usdCandidate at h
  split at h
  · exact absurd h (by simp)
  · exact usdFromGroup_bounds h

theorem extractFromText_bounds {t : String} {p : Nat} (h : extractFromText t = some p) :
    1000 ≤ p ∧ p ≤ 200000 := by
  unfold extractFromText at h
  split at h
  · split at h
    next q hq => cases h; exact jpyCandidate_bounds hq
    next => exact usdCandidate_bounds h
  · exact absurd h (by simp)

theorem mem_filterMap_extract_bounds {l : List String} {p : Nat}
    (h : p ∈ l.filterMap extractFromText) : 1000 ≤ p ∧ p ≤ 200000 := by
  rcases List.mem_filterMap.mp h with ⟨t, _, ht⟩
  exact extractFromText_bounds ht

theorem domLoop_bounds (page : Page) :
    ∀ (sels : List String) (acc : List Nat),
      (∀ q ∈ acc, 1000 ≤ q ∧ q ≤ 200000) →
      ∀ p ∈ domLoop page sels acc, 1000 ≤ p ∧ p ≤ 200000 := by
  intro sels
  induction sels with
  | nil => intro acc hacc p hp; exact hacc p (domLoop_nil page acc ▸ hp)
  | cons sel rest ih =>
    intro acc hacc p hp
    rw [domLoop_cons] at hp
    have hext : ∀ q ∈ acc ++ selCands page sel, 1000 ≤ q ∧ q ≤ 200000 := by
      intro q hq
      rcases List.mem_append.mp hq with hq | hq
      · exact hacc q hq
      · exact mem_filterMap_extract_bounds hq
    split at hp
    · exact ih acc hacc p hp
    · split at hp
      · exact ih _ hext p hp
      · exact hext p hp

theorem domPhase_bounds {page : Page} {p : Nat} (h : p ∈ domPhase page) :
    1000 ≤ p ∧ p ≤ 200000 :=
  domLoop_bounds page selectors [] (by simp) p h

theorem jsLoop_bounds (page : Page) :
    ∀ (sels : List String), ∀ p ∈ jsLoop page sels, 1000 ≤ p ∧ p ≤ 200000 := by
  intro sels
  induction sels with
  | nil => intro p hp; simp [jsLoop] at hp
  | cons sel rest ih =>
    intro p hp
    rw [jsLoop_cons] at hp
    split at hp
    · exact ih p hp
    · exact mem_filterMap_extract_bounds hp

theorem jsPhase_bounds {page : Page} {p : Nat} (h : p ∈ jsPhase page) :
    1000 ≤ p ∧ p ≤ 200000 :=
  jsLoop_bounds page selectors p h

theorem regexJpyPrices_bounds {html : String} {p : Nat} (h : p ∈ regexJpyPrices html) :
    1000 ≤ p ∧ p ≤ 200000 := by
  rcases List.mem_filterMap.mp h with ⟨g, _, hg⟩
  split at hg
  · exact absurd hg (by simp)
  · split at hg
    next hb => cases hg; exact inBounds_iff.mp hb
    next => exact absurd hg (by simp)

theorem regexUsdPrices_bounds {html : String} {p : Nat} (h : p ∈ regexUsdPrices html) :
    1000 ≤ p ∧ p ≤ 200000 := by
  rcases List.mem_filterMap.mp h with ⟨g, _, hg⟩
  exact usdFromGroup_bounds hg

theorem regexPhase_bounds {html : String} {p : Nat} (h : p ∈ regexPhase html) :
    1000 ≤ p ∧ p ≤ 200000 := by
  rcases List.mem_append.mp h with h | h
  · exact regexJpyPrices_bounds h
  · exact regexUsdPrices_bounds h

theorem mem_fetchExtract {page : Page} {p : Nat} (h : p ∈ fetchExtract page) :
    p ∈ domPhase page ∨ p ∈ jsPhase page ∨ p ∈ regexPhase page.html := by
  rw [fetchExtract_eq] at h
  split at h
  · split at h
    · exact Or.inr (Or.inr h)
    · exact Or.inr (Or.inl h)
  · exact Or.inl h

theorem mem_pySort {l : List Nat} {p : Nat} : p ∈ pySort l ↔ p ∈ l :=
  List.mem_insertionSort _

theorem mem_processPrices {l : List Nat} {p : Nat} (h : p ∈ processPrices l) : p ∈ l := by
  rw [processPrices_eq] at h
  split at h
  · exact h
  · split at h
    · exact mem_pySort.mp (List.mem_of_mem_drop (List.mem_of_mem_take h))
    · exact mem_pySort.mp h

theorem selTexts_length_le (page : Page) (sel : String) :
    (selTexts page sel).length ≤ MAX_ITEMS := by
  unfold selTexts
  split
  next h => rw [List.length_take]; omega
  next h => omega

theorem domLoop_length_le (page : Page) :
    ∀ sels : List String, (domLoop page sels []).length ≤ MAX_ITEMS := by
  intro sels
  induction sels with
  | nil => simp [domLoop_nil, MAX_ITEMS]
  | cons sel rest ih =>
    rw [domLoop_cons]
    split
    · exact ih
    · simp only [List.nil_append]
      split
      next hemp =>
        have he : selCands page sel = [] := List.isEmpty_iff.mp hemp
        rw [he]
        exact ih
      next =>
        calc (selCands page sel).length ≤ (selTexts page sel).length :=
              List.length_filterMap_le _ _
          _ ≤ MAX_ITEMS := selTexts_length_le page sel

theorem dictSet_dictSet (m : List (String × Option Nat)) (k : String) (r : Option Nat) :
    dictSet (dictSet m k r) k r = dictSet m k r := by
  induction m with
  | nil => simp [dictSet]
  | cons kv rest ih =>
    obtain ⟨k', v'⟩ := kv
    by_cases h : k' = k
    · simp [dictSet, h]
    · simp [dictSet, h, ih]

/-! ## Digit-string lemmas for the USD-cents analysis -/

theorem isDigitCh_ne_comma {c : Char} (h : isDigitCh c = true) : c ≠ ',' := by
  intro he
  subst he
  exact absurd h (by decide)

theorem isDigitCh_ne_dot {c : Char} (h : isDigitCh c = true) : c ≠ '.' := by
  intro he
  subst he
  exact absurd h (by decide)

theorem stripCommas_digits {ds : List Char} (h : ∀ c ∈ ds, isDigitCh c = true) :
    stripCommas ds = ds := by
  apply List.filter_eq_self.mpr
  intro c hc
  exact decide_eq_true (isDigitCh_ne_comma (h c hc))

theorem takeWhile_digits_dot {ds rest : List Char} (h : ∀ c ∈ ds, isDigitCh c = true) :
    (ds ++ '.' :: rest).takeWhile (fun c => c ≠ '.') = ds := by
  induction ds with
  | nil => simp [List.takeWhile_cons]
  | cons c ds ih =>
    have hc : c ≠ '.' := isDigitCh_ne_dot (h c (by simp))
    simp only [List.cons_append, List.takeWhile_cons, decide_eq_true hc]
    rw [ih (fun x hx => h x (by simp [hx]))]
    simp

theorem pyInt_digits {ds : List Char} (hne : ds ≠ []) (h : ∀ c ∈ ds, isDigitCh c = true) :
    pyInt ds = some (digitsToNat ds) := by
  unfold pyInt
  rw [if_neg]
  simp only [Bool.or_eq_true, not_or, Bool.not_eq_true]
  exact ⟨by simpa [List.isEmpty_iff] using hne,
    by simp only [List.any_eq_false]; intro c hc; simp [h c hc]⟩

theorem usdFromGroup_append_cents {ds cents : List Char} (hne : ds ≠ [])
    (h : ∀ c ∈ ds, isDigitCh c = true) :
    usdFromGroup (ds ++ '.' :: cents) =
      if inBounds (digitsToNat ds * USD_TO_JPY) then some (digitsToNat ds * USD_TO_JPY)
      else none := by
  rw [usdFromGroup_eq]
  have h1 : stripCommas (ds ++ '.' :: cents) = ds ++ '.' :: stripCommas cents := by
    unfold stripCommas
    rw [List.filter_append, List.filter_cons]
    rw [show List.filter (fun c => decide (c ≠ ',')) ds = ds from stripCommas_digits h]
    simp
  rw [h1]
  have h2 : (ds ++ '.' :: stripCommas cents).contains '.' = true := by
    simp [List.contains, List.elem_iff]
  rw [if_pos h2, takeWhile_digits_dot h, pyInt_digits hne h]

/-! ## Concrete inputs used by witnesses and counterexamples -/

/-- The candidate set `[1..20]` of the spec's concrete trimming scenario. -/
def l20 : List Nat := List.range' 1 20

/-- A page whose embedded data holds an on-sale item priced 12000 while the
`.merPrice` elements show ¥7,000. -/
def pageDom : Page :=
  { domTexts := fun sel => if sel = ".merPrice" then ["¥7,000"] else []
    jsTexts := fun _ => []
    html := ""
    scriptData := some (.obj [("price", .num 12000), ("status", .str "on_sale")]) }

/-- A page with no DOM-stage texts whose JS evaluation returns 31 priced
elements for the first selector. -/
def pageJs : Page :=
  { domTexts := fun _ => []
    jsTexts := fun sel => if sel = ".merPrice" then List.replicate 31 "¥5000" else []
    html := ""
    scriptData := none }

/-- A page source containing 31 yen-marked prices. -/
def bigHtml : String := String.join (List.replicate 31 "¥5000 ")

/-- A persisted batch state recorded on 2025-05-01 with one completed query. -/
def staleState : BatchState :=
  { last_update := "2025-05-01", completed := ["A"], results := [("A", some 12000)] }

/-! ## Claim theorems -/

/-- C1 (counterexample): on a page whose embedded JSON data yields the
candidate 12000 for an on-sale item, the DOM-selector stage is still
invoked — and in fact supplies the pipeline's result (¥7,000 from the
`.merPrice` elements) — refuting the claim that the pipeline runs a
JSON-tree strategy first and never invokes the DOM strategy when the JSON
strategy yields a candidate. -/
theorem json_nonempty_dom_still_invoked :
    jsonStrategy pageDom.scriptData = [12000] ∧
    Strat.dom ∈ (fetchExtractTrace pageDom).2 ∧
    (fetchExtractTrace pageDom).1 = [7000] := by
  decide

/-- C1 (amended): `fetch_prices` has no JSON-tree strategy; it invokes the
DOM-selector stage, then the JS-evaluation stage, then the whole-page-regex
stage, strictly in that order, returns the result of the first stage that
yields at least one candidate, and returns the empty sequence when no stage
yields a candidate. -/
theorem pipeline_order_dom_js_regex (page : Page) :
    (domPhase page ≠ [] → fetchExtractTrace page = (domPhase page, [Strat.dom])) ∧
    (domPhase page = [] → jsPhase page ≠ [] →
      fetchExtractTrace page = (jsPhase page, [Strat.dom, Strat.jsEval])) ∧
    (domPhase page = [] → jsPhase page = [] →
      fetchExtractTrace page =
        (regexPhase page.html, [Strat.dom, Strat.jsEval, Strat.regex])) ∧
    (domPhase page = [] → jsPhase page = [] → regexPhase page.html = [] →
      (fetchExtractTrace page).1 = []) := by
  refine ⟨fun h1 => ?_, fun h1 h2 => ?_, fun h1 h2 => ?_, fun h1 h2 h3 => ?_⟩
  · simp [fetchExtractTrace, h1]
  · simp [fetchExtractTrace, h1, h2]
  · simp [fetchExtractTrace, h1, h2]
  · simp [fetchExtractTrace, h1, h2, h3]

/-- C1 (witness): on `pageDom` the DOM stage yields candidates, so the
pipeline returns them having invoked only the DOM stage. -/
theorem pipeline_order_dom_js_regex_witness :
    fetchExtractTrace pageDom = (domPhase pageDom, [Strat.dom]) :=
  (pipeline_order_dom_js_regex pageDom).1 (by decide)

/-- C2 (counterexample): an operation that yields an empty candidate list on
every attempt is not retried at all — exactly 1 attempt occurs, not 4 — the
retry path of `fetch_prices` is entered only from the exception handler. -/
theorem empty_result_not_retried :
    (fetchPricesRun (fun _ => some []) 0).attempts = 1 ∧
    (fetchPricesRun (fun _ => some []) 0).attempts ≠ 4 ∧
    (fetchPricesRun (fun _ => some []) 0).result = [] := by
  decide

/-- C2 (amended): retries happen only on faults.  If every attempt raises,
exactly 4 attempts occur (the initial attempt plus `MAX_RETRIES = 3`
retries), a backoff of `5 * 2^k` seconds is taken before attempt `k+1`, and
the final result is the empty sequence; if every attempt returns an empty
candidate list without raising, exactly 1 attempt occurs and the result is
the empty sequence. -/
theorem retry_only_on_fault :
    (∀ op : Nat → Option (List Nat), (∀ k, op k = none) →
      fetchPricesRun op 0 = { result := [], attempts := 4, backoffs := [5, 10, 20] }) ∧
    (∀ op : Nat → Option (List Nat), (∀ k, op k = some []) →
      fetchPricesRun op 0 = { result := [], attempts := 1, backoffs := [] }) := by
  constructor
  · intro op h
    simp [fetchPricesRun, MAX_RETRIES, fetchPricesAux, h, processPrices]
  · intro op h
    simp [fetchPricesRun, MAX_RETRIES, fetchPricesAux, h, processPrices]

/-- C2 (witness): the amended retry behaviour at the two concrete
operations (always-raising, always-empty). -/
theorem retry_only_on_fault_witness :
    fetchPricesRun (fun _ => none) 0 = { result := [], attempts := 4, backoffs := [5, 10, 20] } ∧
    fetchPricesRun (fun _ => some []) 0 = { result := [], attempts := 1, backoffs := [] } :=
  ⟨retry_only_on_fault.1 (fun _ => none) (fun _ => rfl),
   retry_only_on_fault.2 (fun _ => some []) (fun _ => rfl)⟩

/-- C3: the aggregator sorts the candidate list ascending; when its length
`n` is at least 10 it drops exactly `n / 10` elements from each end (the
result is the middle section of the sorted list, of length `n - 2*(n/10)`),
and when `n < 10` it drops nothing; the result is sorted. -/
theorem aggregator_sort_trim (l : List Nat) :
    (10 ≤ l.length →
      pySort l = (pySort l).take (l.length / 10) ++ processPrices l ++
        (pySort l).drop (l.length - l.length / 10) ∧
      (processPrices l).length = l.length - 2 * (l.length / 10)) ∧
    (l.length < 10 → processPrices l = pySort l) ∧
    List.Sorted (· ≤ ·) (processPrices l) := by
  have hlen : (pySort l).length = l.length := List.length_insertionSort _ _
  have hsorted : List.Sorted (· ≤ ·) (pySort l) := List.sorted_insertionSort _ _
  by_cases hnil : l = []
  · subst hnil
    refine ⟨fun h10 => by simp at h10, fun _ => by simp [processPrices, pySort], ?_⟩
    simp [processPrices]
  · have hproc10 : 10 ≤ l.length →
        processPrices l = ((pySort l).drop (l.length / 10)).take
          (l.length - l.length / 10 - l.length / 10) := by
      intro h10
      rw [processPrices_eq, if_neg (by simpa [List.isEmpty_iff] using hnil),
        if_pos (by omega), hlen]
    refine ⟨fun h10 => ?_, fun hlt => ?_, ?_⟩
    · have hk : l.length / 10 + (l.length - l.length / 10 - l.length / 10) =
          l.length - l.length / 10 := by omega
      constructor
      · rw [hproc10 h10]
        have e1 : (pySort l).take (l.length / 10) ++ (pySort l).drop (l.length / 10) =
            pySort l := List.take_append_drop _ _
        have e2 : ((pySort l).drop (l.length / 10)).take
              (l.length - l.length / 10 - l.length / 10) ++
            ((pySort l).drop (l.length / 10)).drop
              (l.length - l.length / 10 - l.length / 10) =
            (pySort l).drop (l.length / 10) := List.take_append_drop _ _
        have e3 : ((pySort l).drop (l.length / 10)).drop
              (l.length - l.length / 10 - l.length / 10) =
            (pySort l).drop (l.length - l.length / 10) := by
          rw [List.drop_drop, hk]
        calc pySort l = (pySort l).take (l.length / 10) ++ (pySort l).drop (l.length / 10) :=
              e1.symm
          _ = (pySort l).take (l.length / 10) ++
              (((pySort l).drop (l.length / 10)).take
                  (l.length - l.length / 10 - l.length / 10) ++
                (pySort l).drop (l.length - l.length / 10)) := by rw [← e3, e2]
          _ = _ := by rw [List.append_assoc]
      · rw [hproc10 h10, List.length_take, List.length_drop, hlen]
        omega
    · rw [processPrices_eq, if_neg (by simpa [List.isEmpty_iff] using hnil),
        if_neg (by omega)]
    · rw [processPrices_eq]
      split
      next he => exact absurd (List.isEmpty_iff.mp he) hnil
      · split
        · exact List.Pairwise.sublist
            ((List.take_sublist _ _).trans (List.drop_sublist _ _)) hsorted
        · exact hsorted

/-- C3 (witness): the trimming characterisation at the concrete candidate
list `[1..20]`. -/
theorem aggregator_sort_trim_witness :
    pySort l20 = (pySort l20).take (l20.length / 10) ++ processPrices l20 ++
      (pySort l20).drop (l20.length - l20.length / 10) ∧
    (processPrices l20).length = l20.length - 2 * (l20.length / 10) :=
  (aggregator_sort_trim l20).1 (by decide)

/-- C4 (counterexample): trimming `[1..20]` does yield `[3..18]`, but the
reported median `round(median(...))` of that 16-element set is 10, not 11:
Python's `round` sends the half-way value 10.5 to the even neighbour. -/
theorem median_one_to_twenty_is_ten_not_eleven :
    processPrices l20 = List.range' 3 16 ∧
    pyRoundMedian (processPrices l20) = 10 ∧
    pyRoundMedian (processPrices l20) ≠ 11 := by
  decide

/-- C4 (amended): trimming `[1..20]` yields the 16-element set `[3..18]`,
whose 8th and 9th smallest values are 10 and 11; the reported median is
`round(10.5) = 10` under Python's round-half-to-even rule. -/
theorem trim_and_round_median_one_to_twenty :
    processPrices l20 = List.range' 3 16 ∧
    (processPrices l20).length = 16 ∧
    (processPrices l20).getD 7 0 = 10 ∧
    (processPrices l20).getD 8 0 = 11 ∧
    pyRoundMedian (processPrices l20) = 10 := by
  decide

/-- C5 (counterexample): a state persisted on day 2025-05-01 loaded while
the current day is 2025-05-02 is returned unchanged — with its stale day
and non-empty completed list — not replaced by a fresh empty state for
2025-05-02. -/
theorem stale_state_returned_unchanged :
    load_state (StateFileView.readable staleState) ≠ main_fresh_state "2025-05-02" ∧
    (load_state (StateFileView.readable staleState)).last_update = "2025-05-01" ∧
    (load_state (StateFileView.readable staleState)).completed = ["A"] := by
  decide

/-- C5 (amended): `load_state` never inspects the recorded day: a readable
persisted state is returned unchanged whatever its `last_update`, and the
empty initial state (with empty day string) is returned only when the file
is missing or unreadable.  Separately, `main` never consults the persisted
day either: it unconditionally deletes the state file and starts from a
fresh empty state for the current day. -/
theorem load_state_ignores_day :
    (∀ s : BatchState, load_state (StateFileView.readable s) = s) ∧
    load_state StateFileView.missing = initial_state ∧
    load_state StateFileView.unreadable = initial_state ∧
    (∀ today : String, main_fresh_state today =
      { last_update := today, completed := [], results := [] }) :=
  ⟨fun _ => rfl, rfl, rfl, fun _ => rfl⟩

/-- C6 (counterexample): a persistence fault does not abort the run with a
non-zero exit: a failing state write is swallowed inside `save_state`
(which returns normally), and even an exception that reaches the top-level
handler of `main` results in exit code 0. -/
theorem persistence_fault_exits_zero :
    save_state_outcome (PyOutcome.exn "state write failed") = PyOutcome.ok () ∧
    main_exit (PyOutcome.exn "PersistenceFault") = 0 := by
  decide

/-- C6 (amended): the process exits 0 in every case — on normal completion
(even when every query yielded no data), on `KeyboardInterrupt`, and on any
exception reaching the top-level handler of `main`; `save_state` swallows
every write failure, so no persistence fault can abort the run. -/
theorem always_exits_zero :
    (∀ r : PyOutcome Unit, main_exit r = 0) ∧
    (∀ msg : String, save_state_outcome (PyOutcome.exn msg) = PyOutcome.ok ()) :=
  ⟨fun r => by cases r <;> rfl, fun _ => rfl⟩

/-- C7: marking a keyword done twice with the same keyword and result
leaves the state unchanged in effect — the results map is literally equal
and the completed list has the same members (the underlying list gains a
duplicate entry, which does not change the completed set). -/
theorem markDone_idempotent (s : BatchState) (k : String) (r : Option Nat) :
    (markDone (markDone s k r) k r).results = (markDone s k r).results ∧
    ∀ x : String,
      (x ∈ (markDone (markDone s k r) k r).completed ↔ x ∈ (markDone s k r).completed) := by
  constructor
  · simp [markDone, dictSet_dictSet]
  · intro x
    simp [markDone, List.mem_append]

/-- C8: every candidate produced by any extraction stage (DOM-selector,
JS-evaluation, whole-page regex) lies within the code's price bounds
`1000 ≤ p ≤ 200000`, and so does every price in the final trimmed list. -/
theorem price_bounds_invariant (page : Page) (p : Nat) :
    (p ∈ domPhase page → 1000 ≤ p ∧ p ≤ 200000) ∧
    (p ∈ jsPhase page → 1000 ≤ p ∧ p ≤ 200000) ∧
    (p ∈ regexPhase page.html → 1000 ≤ p ∧ p ≤ 200000) ∧
    (p ∈ processPrices (fetchExtract page) → 1000 ≤ p ∧ p ≤ 200000) := by
  refine ⟨fun h => domPhase_bounds h, fun h => jsPhase_bounds h,
    fun h => regexPhase_bounds h, fun h => ?_⟩
  rcases mem_fetchExtract (mem_processPrices h) with h | h | h
  · exact domPhase_bounds h
  · exact jsPhase_bounds h
  · exact regexPhase_bounds h

/-- C8 (witness): the concrete candidate 7000 extracted on `pageDom` is
within bounds. -/
theorem price_bounds_invariant_witness :
    7000 ∈ domPhase pageDom ∧ 1000 ≤ 7000 ∧ 7000 ≤ 200000 :=
  ⟨by decide, (price_bounds_invariant pageDom 7000).1 (by decide)⟩

/-- C9: USD cents are truncated, not rounded: for any dollar digit string
`ds` and any fractional tail, the candidate produced from the captured
group `ds.cents` is the whole-dollar value times the fixed rate
`USD_TO_JPY = 152` (bounds permitting), independent of the cents; in
particular the text `"$10.99"` yields the candidate 1520 (not 1670). -/
theorem usd_cents_truncated :
    (∀ ds cents : List Char, ds ≠ [] → (∀ c ∈ ds, isDigitCh c = true) →
      usdFromGroup (ds ++ '.' :: cents) =
        if inBounds (digitsToNat ds * USD_TO_JPY) then
          some (digitsToNat ds * USD_TO_JPY)
        else none) ∧
    extractFromText "$10.99" = some 1520 :=
  ⟨fun _ _ hne h => usdFromGroup_append_cents hne h, by decide⟩

/-- C9 (witness): the truncation equation at the concrete group `10.99`. -/
theorem usd_cents_truncated_witness :
    usdFromGroup (['1', '0'] ++ '.' :: ['9', '9']) =
      if inBounds (digitsToNat ['1', '0'] * USD_TO_JPY) then
        some (digitsToNat ['1', '0'] * USD_TO_JPY)
      else none :=
  usd_cents_truncated.1 ['1', '0'] ['9', '9'] (by decide) (by decide)

set_option maxRecDepth 10000 in
/-- C10: the DOM-selector stage considers at most `MAX_ITEMS = 30` element
texts per selector and therefore yields at most 30 candidates, while the
JS-evaluation and whole-page-regex stages apply no such cap: pages exist on
which they yield more than 30 candidates. -/
theorem dom_capped_js_regex_uncapped :
    (∀ page : Page, (domPhase page).length ≤ MAX_ITEMS) ∧
    (∃ page : Page, MAX_ITEMS < (jsPhase page).length) ∧
    (∃ html : String, MAX_ITEMS < (regexPhase html).length) :=
  ⟨fun page => domLoop_length_le page selectors,
   ⟨pageJs, by decide⟩,
   ⟨bigHtml, by decide⟩⟩

end Scrape
